import Mathlib

set_option maxRecDepth 1000000

/-!
Verification of the trust-and-session core of a Shopify public app
(`src/storage.ts`, `src/shopify.ts`, `src/server.ts`).

The TypeScript source is shallowly embedded: JavaScript `Map`s become
association lists keyed as the source keys them, `Date.now()` timestamps
become explicit `Int` parameters, fallible code returns `Except`/`Option`,
and JavaScript numbers appearing in pure arithmetic are modelled by `ℚ`
(for rate-limit fractions) or `Int`/`Nat` (for timestamps and counters),
with `Option ℚ` (`none` standing for NaN) wherever a NaN can reach the
operation — the parsed rate-limit header and the catalog-page limit.
Outbound HTTP is modelled by an oracle `Nat → Response` (one response per
attempt) respectively `Option String → page` (one page per cursor).
-/

namespace Shoppify

/-! ## Storage layer (`src/storage.ts`)

The durable stores are in-memory `Map`s mirrored to disk; the logical
content relevant to the claims is the map itself, so a store is an
association list with `Map.get` / `Map.set` / `Map.delete` semantics
keyed by the nonce (for states) resp. shop domain (for sessions). -/

/-- OAuth state nonce record (`StoredState` in `storage.ts`). -/
structure StoredState where
  nonce : String
  shopDomain : String
  createdAt : Int
  deriving Repr, DecidableEq

/-- Shop session record (`StoredSession` / `ShopSession`). -/
structure StoredSession where
  accessToken : String
  scope : String
  shopDomain : String
  createdAt : Int
  deriving Repr, DecidableEq

/-- Product webhook event record (`ProductWebhookEvent`). The payload
(`unknown` in the source, an arbitrary parsed JSON value) is opaque to the
storage layer, so its type is a parameter. -/
structure ProductWebhookEvent (α : Type) where
  id : Int
  shopDomain : String
  topic : String
  payload : α
  receivedAt : Int
  deriving Repr, DecidableEq

/-- The `states` map, keyed by nonce (`states : Map<string, StoredState>`). -/
abbrev StateStore := List StoredState

/-- JS `states.get(nonce)`. -/
def statesGet (st : StateStore) (nonce : String) : Option StoredState :=
  st.find? (fun e => e.nonce == nonce)

/-- JS `states.set(entry.nonce, entry)`: replace in place when the key is
present, append otherwise. -/
def statesSet (st : StateStore) (e : StoredState) : StateStore :=
  if (statesGet st e.nonce).isSome then
    st.map (fun x => if x.nonce == e.nonce then e else x)
  else
    st ++ [e]

/-- JS `states.delete(nonce)`. -/
def statesDelete (st : StateStore) (nonce : String) : StateStore :=
  st.filter (fun e => e.nonce != nonce)

/-- Source `saveState` (`storage.ts` line 108): store the state keyed by its nonce. -/
def saveState (st : StateStore) (e : StoredState) : StateStore :=
  statesSet st e

/-- Source `consumeState` (`storage.ts` lines 114–122): look the nonce up and, when
an entry exists, delete it before returning the entry. Returns the looked-up
entry together with the updated store. -/
def consumeState (st : StateStore) (nonce : String) :
    Option StoredState × StateStore :=
  match statesGet st nonce with
  | some entry => (some entry, statesDelete st nonce)
  | none => (none, st)

/-! ## State validation (`src/shopify.ts` lines 131–138) -/

/-- Default nonce TTL: `STATE_TTL_MS` defaults to `5 * 60 * 1000`. -/
def stateTtlMsDefault : Int := 5 * 60 * 1000

/-- Source `validateState` (`shopify.ts` lines 131–138): reject a falsy state
(`if (!state) return false` — missing or empty string, without consuming),
consume the nonce, reject a consume miss, reject when
`now - createdAt > stateTtlMs`, and otherwise compare the bound shop domain
with the expected one. Returns the boolean outcome and the updated store
(the consume is a store mutation). -/
def validateState (stateTtlMs : Int) (nowMs : Int) (st : StateStore)
    (state : Option String) (shopDomain : String) : Bool × StateStore :=
  match state with
  | none => (false, st)
  | some s =>
    if s == "" then (false, st)
    else
      let r := consumeState st s
      match r.1 with
      | none => (false, r.2)
      | some m =>
        if nowMs - m.createdAt > stateTtlMs then (false, r.2)
        else (m.shopDomain == shopDomain, r.2)

/-! ## Nonce-ledger operation traces (for the anti-replay claim) -/

/-- An operation on the nonce ledger: persist a state nonce (`saveState`,
as issued by `buildAuthUrl`) or attempt to consume one
(`validateState` backed by `consumeState`). -/
inductive LedgerOp where
  | save (e : StoredState)
  | consume (nonce : String) (shopDomain : String) (now : Int)
  deriving Repr, DecidableEq

/-- Run one ledger operation; the boolean is the validation outcome of a
consume (a save reports `false`). -/
def runOp (ttl : Int) (st : StateStore) : LedgerOp → Bool × StateStore
  | .save e => (false, saveState st e)
  | .consume n shop now => validateState ttl now st (some n) shop

/-- Whether an operation is a consume attempt of the given nonce. -/
def isConsumeOf (n : String) : LedgerOp → Bool
  | .save _ => false
  | .consume m _ _ => m == n

/-- Whether an operation saves a state under the given nonce. -/
def isSaveOf (n : String) : LedgerOp → Bool
  | .save e => e.nonce == n
  | .consume _ _ _ => false

/-- Number of successful consumes of nonce `n` along a trace of ledger
operations starting from store `st`. -/
def consumeSuccesses (ttl : Int) (n : String) : StateStore → List LedgerOp → Nat
  | _, [] => 0
  | st, op :: rest =>
    let r := runOp ttl st op
    (if r.1 && isConsumeOf n op then 1 else 0) + consumeSuccesses ttl n r.2 rest

/-! ## Executable SHA-256, HMAC, and encodings

`crypto.createHmac('sha256', secret)` from the Node standard library is
embedded as an executable pure implementation of HMAC-SHA256 over byte
lists (bytes are `Nat` below 256, 32-bit words are `Nat` reduced mod
`2^32`), together with the hex/base64 digest encodings and UTF-8 string
encoding (`Buffer.from(string)`). -/

/-- Reduce a natural number to a 32-bit word. -/
def w32 (n : Nat) : Nat := n % 4294967296

/-- Rotate a 32-bit word right by `k`. -/
def rotr (k x : Nat) : Nat := w32 ((x >>> k) ||| (x <<< (32 - k)))

/-- Bitwise complement of a 32-bit word. -/
def notw (x : Nat) : Nat := x ^^^ 4294967295

/-- SHA-256 `Ch` function. -/
def chf (x y z : Nat) : Nat := (x &&& y) ^^^ (notw x &&& z)

/-- SHA-256 `Maj` function. -/
def majf (x y z : Nat) : Nat := (x &&& y) ^^^ (x &&& z) ^^^ (y &&& z)

/-- SHA-256 big sigma 0. -/
def bsig0 (x : Nat) : Nat := rotr 2 x ^^^ rotr 13 x ^^^ rotr 22 x

/-- SHA-256 big sigma 1. -/
def bsig1 (x : Nat) : Nat := rotr 6 x ^^^ rotr 11 x ^^^ rotr 25 x

/-- SHA-256 small sigma 0. -/
def ssig0 (x : Nat) : Nat := rotr 7 x ^^^ rotr 18 x ^^^ (x >>> 3)

/-- SHA-256 small sigma 1. -/
def ssig1 (x : Nat) : Nat := rotr 17 x ^^^ rotr 19 x ^^^ (x >>> 10)

/-- SHA-256 round constants. -/
def sha256K : List Nat :=
  [1116352408, 1899447441, 3049323471, 3921009573, 961987163,
   1508970993, 2453635748, 2870763221, 3624381080, 310598401,
   607225278, 1426881987, 1925078388, 2162078206, 2614888103,
   3248222580, 3835390401, 4022224774, 264347078, 604807628,
   770255983, 1249150122, 1555081692, 1996064986, 2554220882,
   2821834349, 2952996808, 3210313671, 3336571891, 3584528711,
   113926993, 338241895, 666307205, 773529912, 1294757372,
   1396182291, 1695183700, 1986661051, 2177026350, 2456956037,
   2730485921, 2820302411, 3259730800, 3345764771, 3516065817,
   3600352804, 4094571909, 275423344, 430227734, 506948616,
   659060556, 883997877, 958139571, 1322822218, 1537002063,
   1747873779, 1955562222, 2024104815, 2227730452, 2361852424,
   2428436474, 2756734187, 3204031479, 3329325298]

/-- Big-endian 8-byte encoding of the bit length. -/
def be64 (n : Nat) : List Nat :=
  [(n >>> 56) &&& 255, (n >>> 48) &&& 255, (n >>> 40) &&& 255,
   (n >>> 32) &&& 255, (n >>> 24) &&& 255, (n >>> 16) &&& 255,
   (n >>> 8) &&& 255, n &&& 255]

/-- Big-endian 4-byte encoding of a 32-bit word. -/
def be32 (n : Nat) : List Nat :=
  [(n >>> 24) &&& 255, (n >>> 16) &&& 255, (n >>> 8) &&& 255, n &&& 255]

/-- SHA-256 message padding: append `0x80`, zero bytes up to 56 mod 64, and
the 64-bit big-endian bit length. -/
def sha256Pad (msg : List Nat) : List Nat :=
  let z := (119 - (msg.length % 64)) % 64
  msg ++ 0x80 :: List.replicate z 0 ++ be64 (8 * msg.length)

/-- Pack bytes into big-endian 32-bit words (the input length is a multiple
of four whenever this is reached). -/
def bytesToWords : List Nat → List Nat
  | a :: b :: c :: d :: rest =>
    (((a <<< 8 ||| b) <<< 8 ||| c) <<< 8 ||| d) :: bytesToWords rest
  | _ => []

/-- Extend the reversed message schedule by `k` further words. -/
def extendSchedule : Nat → List Nat → List Nat
  | 0, rws => rws
  | k + 1, rws =>
    let w := w32 (ssig1 (rws.getD 1 0) + rws.getD 6 0 +
      ssig0 (rws.getD 14 0) + rws.getD 15 0)
    extendSchedule k (w :: rws)

/-- Working state of the SHA-256 compression function. -/
structure Sha8 where
  a : Nat
  b : Nat
  c : Nat
  d : Nat
  e : Nat
  f : Nat
  g : Nat
  h : Nat
  deriving Repr, DecidableEq

/-- Run `k` SHA-256 rounds starting at round index `i`. -/
def sha256Rounds (ws : List Nat) : Nat → Nat → Sha8 → Sha8
  | 0, _, s => s
  | k + 1, i, s =>
    let t1 := w32 (s.h + bsig1 s.e + chf s.e s.f s.g +
      sha256K.getD i 0 + ws.getD i 0)
    let t2 := w32 (bsig0 s.a + majf s.a s.b s.c)
    sha256Rounds ws k (i + 1)
      ⟨w32 (t1 + t2), s.a, s.b, s.c, w32 (s.d + t1), s.e, s.f, s.g⟩

/-- SHA-256 initial hash state. -/
def sha256Init : Sha8 :=
  ⟨1779033703, 3144134277, 1013904242, 2773480762,
   1359893119, 2600822924, 528734635, 1541459225⟩

/-- Compress one 64-byte block into the hash state. -/
def sha256Block (s : Sha8) (block : List Nat) : Sha8 :=
  let ws := (extendSchedule 48 (bytesToWords block).reverse).reverse
  let t := sha256Rounds ws 64 0 s
  ⟨w32 (s.a + t.a), w32 (s.b + t.b), w32 (s.c + t.c), w32 (s.d + t.d),
   w32 (s.e + t.e), w32 (s.f + t.f), w32 (s.g + t.g), w32 (s.h + t.h)⟩

/-- Fold the compression function over `n` consecutive 64-byte blocks. -/
def sha256Fold : Nat → Sha8 → List Nat → Sha8
  | 0, s, _ => s
  | n + 1, s, l => sha256Fold n (sha256Block s (l.take 64)) (l.drop 64)

/-- SHA-256 digest (32 bytes) of a byte list. -/
def sha256 (msg : List Nat) : List Nat :=
  let padded := sha256Pad msg
  let s := sha256Fold (padded.length / 64) sha256Init padded
  be32 s.a ++ be32 s.b ++ be32 s.c ++ be32 s.d ++
    be32 s.e ++ be32 s.f ++ be32 s.g ++ be32 s.h

/-- HMAC-SHA256 over byte lists. -/
def hmacSha256 (key msg : List Nat) : List Nat :=
  let k0 := if 64 < key.length then sha256 key else key
  let kp := k0 ++ List.replicate (64 - k0.length) 0
  let inner := sha256 (kp.map (fun b => b ^^^ 0x36) ++ msg)
  sha256 (kp.map (fun b => b ^^^ 0x5c) ++ inner)

/-- UTF-8 encoding of one character. -/
def charUtf8 (ch : Char) : List Nat :=
  let n := ch.toNat
  if n < 128 then [n]
  else if n < 2048 then [192 ||| (n >>> 6), 128 ||| (n &&& 63)]
  else if n < 65536 then
    [224 ||| (n >>> 12), 128 ||| ((n >>> 6) &&& 63), 128 ||| (n &&& 63)]
  else
    [240 ||| (n >>> 18), 128 ||| ((n >>> 12) &&& 63),
     128 ||| ((n >>> 6) &&& 63), 128 ||| (n &&& 63)]

/-- UTF-8 bytes of a string (`Buffer.from(s, 'utf-8')`). -/
def utf8Bytes (s : String) : List Nat :=
  (s.data.map charUtf8).flatten

/-- Lowercase hex digit. -/
def hexDigit (n : Nat) : Char :=
  if n < 10 then Char.ofNat (48 + n) else Char.ofNat (87 + n)

/-- Lowercase hex encoding of a byte list (`digest('hex')`). -/
def bytesToHex (l : List Nat) : String :=
  String.mk ((l.map (fun b => [hexDigit (b >>> 4), hexDigit (b &&& 15)])).flatten)

/-- Base64 alphabet. -/
def b64Alphabet : List Char :=
  "ABCDEFGHIJKLMNOPQRSTUVWXYZabcdefghijklmnopqrstuvwxyz0123456789+/".data

/-- Base64 character for a 6-bit value. -/
def b64c (n : Nat) : Char := b64Alphabet.getD n 'A'

/-- Base64 encoding of a byte list with `=` padding (`digest('base64')`). -/
def base64Chars : List Nat → List Char
  | [] => []
  | [a] => [b64c (a >>> 2), b64c ((a &&& 3) <<< 4), '=', '=']
  | [a, b] =>
    [b64c (a >>> 2), b64c (((a &&& 3) <<< 4) ||| (b >>> 4)),
     b64c ((b &&& 15) <<< 2), '=']
  | a :: b :: c :: rest =>
    b64c (a >>> 2) :: b64c (((a &&& 3) <<< 4) ||| (b >>> 4)) ::
      b64c (((b &&& 15) <<< 2) ||| (c >>> 6)) :: b64c (c &&& 63) ::
      base64Chars rest

/-- Base64 encoding as a string. -/
def bytesToBase64 (l : List Nat) : String := String.mk (base64Chars l)

/-- Whitespace characters recognized by JavaScript `String.prototype.trim`
(the ASCII fragment, which covers the inputs handled here). -/
def jsWhitespaceChar (c : Char) : Bool :=
  c == ' ' || c == '\t' || c == '\n' || c == '\r' || c == '\x0b' || c == '\x0c'

/-- JavaScript `s.trim()`: strip whitespace from both ends. -/
def jsTrim (s : String) : String :=
  String.mk (((s.data.dropWhile jsWhitespaceChar).reverse.dropWhile
    jsWhitespaceChar).reverse)

/-- Split a character list on a separator character, keeping empty parts
(the behavior of JavaScript `String.prototype.split` with a one-character
separator). -/
def splitOnChar (sep : Char) (cs : List Char) : List (List Char) :=
  cs.foldr
    (fun c acc =>
      match acc with
      | cur :: rest => if c == sep then [] :: cur :: rest else (c :: cur) :: rest
      | [] => [[c]])
    [[]]

/-- JavaScript `h.split('/')`. -/
def splitSlash (h : String) : List String :=
  (splitOnChar '/' h.data).map String.mk

/-! ## Callback HMAC verification (`src/shopify.ts` lines 77–98) -/

/-- JavaScript falsiness of `string | undefined | null`: `undefined`, `null`
and the empty string are falsy. -/
def jsFalsy : Option String → Bool
  | none => true
  | some s => s == ""

/-- A query-parameter value as Express delivers it:
`string | string[]`. -/
inductive QueryValue where
  | str (s : String)
  | arr (ss : List String)
  deriving Repr, DecidableEq

/-- JS `Array.isArray(value) ? value.join(',') : value`. -/
def joinValue : QueryValue → String
  | .str s => s
  | .arr ss => String.intercalate "," ss

/-- JS object property assignment `obj[k] = v` on a record represented as an
association list: overwrite in place when the key exists, append otherwise. -/
def recSet (ps : List (String × String)) (k v : String) :
    List (String × String) :=
  if (ps.find? (fun p => p.1 == k)).isSome then
    ps.map (fun p => if p.1 == k then (k, v) else p)
  else ps ++ [(k, v)]

/-- Lines 79–83 of `shopify.ts`: walk the query entries, skip `signature`,
and store each remaining value (arrays comma-joined) into a fresh record. -/
def buildQueryParams (q : List (String × QueryValue)) :
    List (String × String) :=
  q.foldl
    (fun acc kv =>
      if kv.1 == "signature" then acc else recSet acc kv.1 (joinValue kv.2))
    []

/-- Insert a string into a lexicographically sorted list
(`Array.prototype.sort` with the default comparator; Lean's `String` order
is code-point lexicographic, which agrees with the JS code-unit order on
all Basic Multilingual Plane keys). -/
def insertStr (k : String) : List String → List String
  | [] => [k]
  | x :: xs => if k ≤ x then k :: x :: xs else x :: insertStr k xs

/-- Insertion sort of strings. -/
def sortStrings : List String → List String
  | [] => []
  | k :: ks => insertStr k (sortStrings ks)

/-- Insert a key-value pair into a list sorted by key. -/
def insertPair (p : String × String) :
    List (String × String) → List (String × String)
  | [] => [p]
  | x :: xs => if p.1 ≤ x.1 then p :: x :: xs else x :: insertPair p xs

/-- Insertion sort of key-value pairs by key. -/
def sortPairs : List (String × String) → List (String × String)
  | [] => []
  | p :: ps => insertPair p (sortPairs ps)

/-- One byte of `application/x-www-form-urlencoded` serialization
(the `URLSearchParams.toString()` escaping): ASCII alphanumerics and
`*`, `-`, `.`, `_` kept, space becomes `+`, every other byte becomes
`%XX` with uppercase hex. -/
def urlencodeByte (b : Nat) : List Char :=
  if b == 32 then ['+']
  else if (48 ≤ b && b ≤ 57) || (65 ≤ b && b ≤ 90) || (97 ≤ b && b ≤ 122)
      || b == 42 || b == 45 || b == 46 || b == 95 then
    [Char.ofNat b]
  else
    ['%',
     (if b >>> 4 < 10 then Char.ofNat (48 + (b >>> 4))
      else Char.ofNat (55 + (b >>> 4))),
     (if (b &&& 15) < 10 then Char.ofNat (48 + (b &&& 15))
      else Char.ofNat (55 + (b &&& 15)))]

/-- The `application/x-www-form-urlencoded` escaping of a string. -/
def urlencode (s : String) : String :=
  String.mk ((utf8Bytes s).map urlencodeByte).flatten

/-- JS `URLSearchParams.toString()`: serialize `key=value` pairs joined by `&`,
with key and value each urlencoded. -/
def serializeParams (ps : List (String × String)) : String :=
  String.intercalate "&" (ps.map (fun p => urlencode p.1 ++ "=" ++ urlencode p.2))

/-- The `hmac` entry of the built query record (line 84: read before the
`delete`). -/
def callbackReceivedHmac (q : List (String × QueryValue)) : Option String :=
  ((buildQueryParams q).find? (fun p => p.1 == "hmac")).map Prod.snd

/-- The query record after `delete queryParams.hmac` (line 85). -/
def callbackRemaining (q : List (String × QueryValue)) :
    List (String × String) :=
  (buildQueryParams q).filter (fun p => p.1 != "hmac")

/-- Lines 87–92: append the record's entries to a fresh `URLSearchParams`
in lexicographically sorted key order. -/
def callbackSortedParams (q : List (String × QueryValue)) :
    List (String × String) :=
  (sortStrings ((callbackRemaining q).map Prod.fst)).map
    (fun k =>
      (k, (((callbackRemaining q).find? (fun p => p.1 == k)).map Prod.snd).getD ""))

/-- Source `verifyCallbackHmac` (`shopify.ts` lines 77–98): drop `signature`,
comma-join array values, read and delete the `hmac` entry, sort the
remaining keys, serialize them through `URLSearchParams`, and compare the
hex HMAC-SHA256 of that string against the received `hmac` value. -/
def verifyCallbackHmac (apiSecret : String) (q : List (String × QueryValue)) :
    Bool :=
  if apiSecret == "" then false
  else
    match callbackReceivedHmac q with
    | some r =>
      bytesToHex (hmacSha256 (utf8Bytes apiSecret)
        (utf8Bytes (serializeParams (callbackSortedParams q)))) == r
    | none => false

/-- Canonical parameter list described by the spec: exclude `signature` and
`hmac`, take the remaining entries with array values comma-joined. -/
def specCallbackParams (q : List (String × QueryValue)) :
    List (String × String) :=
  (q.filter (fun kv => kv.1 != "signature" && kv.1 != "hmac")).map
    (fun kv => (kv.1, joinValue kv.2))

/-- The received `hmac` parameter (comma-joined when multi-valued). -/
def specReceivedHmac (q : List (String × QueryValue)) : Option String :=
  (q.find? (fun kv => kv.1 == "hmac")).map (fun kv => joinValue kv.2)

/-- The signed string as the spec sentence reads it: canonical parameters
sorted lexicographically by key, re-serialized as `key=value` pairs joined
by `&` with each value taken verbatim. -/
def specCallbackMessage (q : List (String × QueryValue)) : String :=
  String.intercalate "&"
    ((sortPairs (specCallbackParams q)).map (fun p => p.1 ++ "=" ++ p.2))

/-- The signed string as amended: identical to `specCallbackMessage` except
that keys and values are `application/x-www-form-urlencoded`-escaped rather
than taken verbatim. -/
def specCallbackMessageEncoded (q : List (String × QueryValue)) : String :=
  String.intercalate "&"
    ((sortPairs (specCallbackParams q)).map
      (fun p => urlencode p.1 ++ "=" ++ urlencode p.2))

/-- Callback verification exactly as the spec sentence reads: compare the
hex HMAC-SHA256 of the verbatim canonical string against the received
`hmac` value. -/
def specCallbackAccept (apiSecret : String) (q : List (String × QueryValue)) :
    Bool :=
  match specReceivedHmac q with
  | some r =>
    bytesToHex (hmacSha256 (utf8Bytes apiSecret)
      (utf8Bytes (specCallbackMessage q))) == r
  | none => false

/-- Callback verification as amended: compare the hex HMAC-SHA256 of the
urlencoded canonical string against the received `hmac` value. -/
def specCallbackAcceptEncoded (apiSecret : String)
    (q : List (String × QueryValue)) : Bool :=
  match specReceivedHmac q with
  | some r =>
    bytesToHex (hmacSha256 (utf8Bytes apiSecret)
      (utf8Bytes (specCallbackMessageEncoded q))) == r
  | none => false

/-! ## Webhook HMAC verification (`src/shopify.ts` lines 257–261) -/

/-- Node `crypto.timingSafeEqual`: compares two byte buffers in constant time but
throws a `RangeError` (modelled as `Except.error ()`) when the byte lengths
differ. -/
def timingSafeEqual (a b : List Nat) : Except Unit Bool :=
  if a.length ≠ b.length then .error () else .ok (a == b)

/-- Source `verifyWebhookHmac` (`shopify.ts` lines 257–261): falsy secret or header
short-circuit to `false`; otherwise compare the base64 HMAC-SHA256 of the
raw body against the header via `crypto.timingSafeEqual` on the UTF-8 bytes
of both strings. -/
def verifyWebhookHmac (apiSecret : Option String) (rawBody : List Nat)
    (hmacHeader : Option String) : Except Unit Bool :=
  if jsFalsy apiSecret || jsFalsy hmacHeader then .ok false
  else
    let digest := bytesToBase64 (hmacSha256 (utf8Bytes (apiSecret.getD "")) rawBody)
    timingSafeEqual (utf8Bytes digest) (utf8Bytes (hmacHeader.getD ""))

/-! ## Resilient outbound client (`src/shopify.ts` lines 206–255)

`fetch` is modelled by an oracle `Nat → UpstreamResponse` handing the
response to the `n`-th request of one `shopifyRequest` call; the random
jitter of `computeBackoff` becomes an explicit parameter. -/

/-- The observable parts of an upstream HTTP response: status, body text and
the `x-shopify-shop-api-call-limit` header. -/
structure UpstreamResponse where
  status : Nat
  body : String
  callLimitHeader : Option String
  deriving Repr, DecidableEq

/-- JS `response.ok`: status in `[200, 300)`. -/
def respOk (r : UpstreamResponse) : Bool :=
  200 ≤ r.status && r.status < 300

/-- Source `shouldRetry` (`shopify.ts` lines 222–224): 429 or any 5xx. -/
def shouldRetry (r : UpstreamResponse) : Bool :=
  r.status == 429 || (500 ≤ r.status && r.status < 600)

/-- Constant `MAX_RETRIES` (`shopify.ts` line 210). -/
def MAX_RETRIES : Nat := 3

/-- Constant `BASE_DELAY_MS` (`shopify.ts` line 211). -/
def BASE_DELAY_MS : ℚ := 500

/-- Source `computeBackoff` (`shopify.ts` lines 217–220) with the random jitter
(`Math.random() * 100`) passed explicitly: `BASE_DELAY_MS * 2^attempt + jitter`. -/
def computeBackoff (attempt : Nat) (jitter : ℚ) : ℚ :=
  BASE_DELAY_MS * 2 ^ attempt + jitter

/-- The decimal fragment of JavaScript string-to-number coercion
(`Number(part)`): optional surrounding whitespace, optional sign, digits
with an optional fractional part; `''` coerces to `0`; anything outside
this fragment (the grammar the `used/capacity` header stays inside) is NaN,
modelled as `none`. -/
def parseDecimal (cs : List Char) : Option ℚ :=
  let intPart := cs.takeWhile Char.isDigit
  let rest := cs.dropWhile Char.isDigit
  let natVal : List Char → ℚ :=
    fun ds => ((ds.foldl (fun a c => a * 10 + (c.toNat - 48)) 0 : Nat) : ℚ)
  match rest with
  | [] => if intPart.isEmpty then none else some (natVal intPart)
  | '.' :: frac =>
    if frac.all Char.isDigit && !(intPart.isEmpty && frac.isEmpty) then
      some (natVal intPart + natVal frac / ((10 : ℚ) ^ frac.length))
    else none
  | _ => none

/-- JavaScript `Number(s)` on the decimal fragment (see `parseDecimal`). -/
def jsNumber (s : String) : Option ℚ :=
  let t := jsTrim s
  if t = "" then some 0
  else
    match t.data with
    | '+' :: rest => parseDecimal rest
    | '-' :: rest => (parseDecimal rest).map Neg.neg
    | cs => parseDecimal cs

/-- JS `limitHeader.split('/').map(Number)` destructured as `[used, bucket]`:
the first part always exists, a missing second part is `Number(undefined)`,
i.e. NaN. -/
def splitNumbers (h : String) : Option ℚ × Option ℚ :=
  let parts := (splitSlash h).map jsNumber
  (parts.getD 0 none, parts.getD 1 none)

/-- Source `throttleDelayFromHeaders` (`shopify.ts` lines 226–234): no delay when
the header is missing or falsy, a part is not a finite number, the bucket is
zero, or utilization is below 0.8; otherwise
`BASE_DELAY_MS + (utilization - 0.8) * 1000`. -/
def throttleDelayFromHeaders (r : UpstreamResponse) : Option ℚ :=
  match r.callLimitHeader with
  | none => none
  | some h =>
    if h == "" then none
    else
      match splitNumbers h with
      | (some used, some bucket) =>
        if bucket = 0 then none
        else
          let utilization := used / bucket
          if utilization < 4 / 5 then none
          else some (BASE_DELAY_MS + (utilization - 4 / 5) * 1000)
      | _ => none

/-- The delay slept before the next retry (`shopify.ts` line 248):
`computeBackoff(attempt) + (throttleDelay ?? 0)`. -/
def retryDelay (jitter : ℚ) (attempt : Nat) (r : UpstreamResponse) : ℚ :=
  computeBackoff attempt jitter + (throttleDelayFromHeaders r).getD 0

/-- Source `shopifyRequest` (`shopify.ts` lines 236–255): return a 2xx response
unchanged; otherwise retry (when the caller allows it, the status is
retryable and `attempt < MAX_RETRIES`) or surface the status and body as a
terminal error. The second component counts the HTTP requests issued. -/
def shopifyRequestGo (up : Nat → UpstreamResponse) (retryOnThrottle : Bool)
    (attempt : Nat) : Except (Nat × String) UpstreamResponse × Nat :=
  let r := up attempt
  if respOk r then (.ok r, 1)
  else if h : retryOnThrottle && shouldRetry r && decide (attempt < MAX_RETRIES) then
    let res := shopifyRequestGo up retryOnThrottle (attempt + 1)
    (res.1, res.2 + 1)
  else (.error (r.status, r.body), 1)
termination_by MAX_RETRIES - attempt
decreasing_by
  simp only [Bool.and_eq_true, decide_eq_true_eq] at h
  omega

/-- A full `shopifyRequest` call starts at attempt 0. -/
def shopifyRequest (up : Nat → UpstreamResponse) (retryOnThrottle : Bool) :
    Except (Nat × String) UpstreamResponse × Nat :=
  shopifyRequestGo up retryOnThrottle 0

/-! ## Shop domain validation and sessions (`src/shopify.ts` lines 46–53,
140–142) -/

/-- ASCII letter or digit, the `[a-zA-Z0-9]` class. -/
def isAlnumAscii (c : Char) : Bool := c.isAlpha || c.isDigit

/-- The regex `^[a-zA-Z0-9][a-zA-Z0-9-]*\.myshopify\.com$` as an executable
matcher: the string is a nonempty label of alphanumerics/hyphens starting
with an alphanumeric, followed by the literal suffix `.myshopify.com`
(the character class cannot match `.`, so the suffix is exactly the last 14
characters). -/
def shopDomainMatches (s : String) : Bool :=
  if s.data.length < (".myshopify.com".data).length + 1 then false
  else
    (s.data.drop (s.data.length - (".myshopify.com".data).length)
        == ".myshopify.com".data) &&
      match s.data.take (s.data.length - (".myshopify.com".data).length) with
      | [] => false
      | c :: rest => isAlnumAscii c && rest.all (fun x => isAlnumAscii x || x == '-')

/-- The same pattern stated declaratively, for the claim: after trimming,
the string decomposes as an alphanumeric character, then
alphanumeric-or-hyphen characters, then the literal `.myshopify.com`. -/
def specShopPattern (s : String) : Prop :=
  ∃ c mid, s.data = c :: mid ++ ".myshopify.com".data ∧
    isAlnumAscii c = true ∧ ∀ x ∈ mid, isAlnumAscii x = true ∨ x = '-'

/-- Source `sanitizeShopDomain` (`shopify.ts` lines 46–53): trim, test against the
pattern, throw on mismatch, return the trimmed string on match. -/
def sanitizeShopDomain (shopDomain : String) : Except String String :=
  let trimmed := jsTrim shopDomain
  if shopDomainMatches trimmed then .ok trimmed
  else .error "Invalid shop domain. Expected format: example.myshopify.com"

/-- The `sessions` map keyed by shop domain; `sessions.get(shopDomain)`. -/
def sessionsGet (ss : List StoredSession) (shop : String) :
    Option StoredSession :=
  ss.find? (fun s => s.shopDomain == shop)

/-- Source `getSession` (`shopify.ts` lines 140–142): `loadSession` on the
sanitized domain; the sanitizer's exception propagates. -/
def getSession (sessions : List StoredSession) (shopDomain : String) :
    Except String (Option StoredSession) :=
  (sanitizeShopDomain shopDomain).map (fun v => sessionsGet sessions v)

/-! ## Catalog pagination (`src/shopify.ts` lines 144–196)

The HTTP round trip plus response parsing of one page is abstracted into an
oracle from the request parameters to the parsed `ProductPage`; the session
resolution, domain validation and limit clamping in front of it are
embedded from the source. -/

/-- Parsed product image (`alt` may be null). -/
structure ProductImage where
  src : String
  alt : Option String
  deriving Repr, DecidableEq

/-- Parsed product record. -/
structure Product where
  id : Int
  title : String
  images : List ProductImage
  deriving Repr, DecidableEq

/-- One page of products plus the cursor extracted from the `link` header. -/
structure ProductPage where
  products : List Product
  nextPageInfo : Option String
  deriving Repr, DecidableEq

/-- The request parameters `fetchProductsPage` puts on the upstream URL:
the `limit` after the clamp (a JS number, `none` standing for NaN — the
route hands `Number(req.query.limit)` to the fetch, so NaN is reachable
here and `limit.toString()` then renders as `"NaN"`) and the optional
`page_info` cursor. -/
structure PageRequest where
  limit : Option ℚ
  pageInfo : Option String
  deriving Repr, DecidableEq

/-- Failures of the catalog fetch path. -/
inductive FetchErr where
  | invalidDomain
  | sessionMissing (shopDomain : String)
  deriving Repr, DecidableEq

/-- JS truthiness of an optional-string cursor: `if (options.pageInfo)`
skips both a missing and an empty-string cursor. -/
def jsOptCursor (o : Option String) : Option String :=
  match o with
  | some s => if s == "" then none else some s
  | none => none

/-- JS `Math.max` on two numbers (`none` is NaN): NaN propagates. -/
def jsMax (a b : Option ℚ) : Option ℚ :=
  match a, b with
  | some x, some y => some (max x y)
  | _, _ => none

/-- JS `Math.min` on two numbers (`none` is NaN): NaN propagates. -/
def jsMin (a b : Option ℚ) : Option ℚ :=
  match a, b with
  | some x, some y => some (min x y)
  | _, _ => none

/-- Source `fetchProductsPage` (`shopify.ts` lines 144–183): resolve the session
(domain-validation errors propagate, a missing session raises the
session-missing error before any request is issued), clamp the limit via
`Math.min(Math.max(options.limit ?? 100, 1), 250)` — `??` replaces only a
missing limit, so a NaN limit (`none`, e.g. `Number('abc')` from the
`/products` route) passes through both `Math.max` and `Math.min` — then
issue the request, with `page_info` set only for a truthy cursor; the
oracle `up` stands for the HTTP call plus body/link-header parsing.
Returns the issued request alongside the page. -/
def fetchProductsPage (up : PageRequest → ProductPage)
    (sessions : List StoredSession) (shopDomain : String)
    (pageInfo : Option String) (limit : Option (Option ℚ)) :
    Except FetchErr (PageRequest × ProductPage) :=
  match getSession sessions shopDomain with
  | .error _ => .error .invalidDomain
  | .ok none => .error (.sessionMissing shopDomain)
  | .ok (some _) =>
    let lim := jsMin (jsMax (limit.getD (some 100)) (some 1)) (some 250)
    let req : PageRequest := ⟨lim, jsOptCursor pageInfo⟩
    .ok (req, up req)

/-- The do-while loop of `fetchProducts` (`shopify.ts` lines 185–196) over
an abstract page fetcher, with fuel: `none` means the loop has not finished
within the fuel budget (the source loop is unbounded). The guard
`while (pageInfo)` is JS-truthy, so an empty-string cursor also ends the
loop. -/
def fetchProductsGo (fp : Option String → Except FetchErr ProductPage) :
    Nat → Option String → List Product → Option (Except FetchErr (List Product))
  | 0, _, _ => none
  | fuel + 1, pageInfo, acc =>
    match fp pageInfo with
    | .error e => some (.error e)
    | .ok page =>
      let acc' := acc ++ page.products
      match page.nextPageInfo with
      | none => some (.ok acc')
      | some next =>
        if next == "" then some (.ok acc')
        else fetchProductsGo fp fuel (some next) acc'

/-- Source `fetchProducts`: run the aggregation loop starting with no cursor, each
page fetched by `fetchProductsPage` with no explicit limit. -/
def fetchProducts (up : PageRequest → ProductPage)
    (sessions : List StoredSession) (shopDomain : String) (fuel : Nat) :
    Option (Except FetchErr (List Product)) :=
  fetchProductsGo
    (fun pi => (fetchProductsPage up sessions shopDomain pi none).map Prod.snd)
    fuel none []

/-- The cursor-following page chain as the spec words it: fetch a page, stop
when `nextPageInfo` is absent, otherwise follow the cursor; collect the
pages in arrival order. -/
def specPageChain (fp : Option String → Except FetchErr ProductPage) :
    Nat → Option String → Option (Except FetchErr (List ProductPage))
  | 0, _ => none
  | fuel + 1, cursor =>
    match fp cursor with
    | .error e => some (.error e)
    | .ok page =>
      match page.nextPageInfo with
      | none => some (.ok [page])
      | some next =>
        match specPageChain fp fuel (some next) with
        | none => none
        | some (.error e) => some (.error e)
        | some (.ok pages) => some (.ok (page :: pages))

/-- Aggregation as the spec words it: the concatenation, in arrival order,
of the products lists of the page chain started with no cursor. -/
def specFetchAll (fp : Option String → Except FetchErr ProductPage)
    (fuel : Nat) : Option (Except FetchErr (List Product)) :=
  match specPageChain fp fuel none with
  | none => none
  | some (.error e) => some (.error e)
  | some (.ok pages) => some (.ok ((pages.map ProductPage.products).flatten))

/-! ## Webhook ingestion (`src/server.ts` lines 217–234, `src/storage.ts`
lines 124–133, `src/shopify.ts` lines 285–301) -/

/-- Source `recordWebhook`: append the event to the log (`webhookEvents.push`). -/
def recordWebhook {α : Type} (log : List (ProductWebhookEvent α))
    (e : ProductWebhookEvent α) : List (ProductWebhookEvent α) :=
  log ++ [e]

/-- Insert an event into a list sorted by `receivedAt` descending. -/
def insertByRecvDesc {α : Type} (e : ProductWebhookEvent α) :
    List (ProductWebhookEvent α) → List (ProductWebhookEvent α)
  | [] => [e]
  | x :: xs =>
    if x.receivedAt < e.receivedAt then e :: x :: xs
    else x :: insertByRecvDesc e xs

/-- Source `listWebhooks`: a copy of the log sorted by `receivedAt` descending. -/
def listWebhooks {α : Type} :
    List (ProductWebhookEvent α) → List (ProductWebhookEvent α)
  | [] => []
  | x :: xs => insertByRecvDesc x (listWebhooks xs)

/-- JS `a || b` on an optional string: the default replaces `undefined` and
the empty string. -/
def jsOr (o : Option String) (d : String) : String :=
  match o with
  | none => d
  | some s => if s == "" then d else s

/-- The `POST /webhooks/products` handler (`server.ts` lines 217–234)
composed with `recordProductWebhook` (`shopify.ts` lines 285–301):
verify the raw body's signature first (`Except.error ()` models the
uncaught `RangeError` out of `crypto.timingSafeEqual`), answer 401 without
recording on verification failure, then parse the body (`parseBody` stands
for `JSON.parse`, `none` meaning it throws, which the handler answers with
500 and no record), derive the event id from the payload's `id` field
(`idOf`) falling back to `Date.now()`, and append the event. Returns the
response status and the updated log. -/
def handleProductWebhook {α : Type} (apiSecret : Option String)
    (parseBody : List Nat → Option α) (idOf : α → Option Int) (nowMs : Int)
    (rawBody : List Nat) (hmacHeader topicHeader shopHeader : Option String)
    (log : List (ProductWebhookEvent α)) :
    Except Unit (Nat × List (ProductWebhookEvent α)) :=
  match verifyWebhookHmac apiSecret rawBody hmacHeader with
  | .error () => .error ()
  | .ok false => .ok (401, log)
  | .ok true =>
    let topic := jsOr topicHeader "unknown"
    let shopDomain := jsOr shopHeader "unknown-shop"
    match parseBody rawBody with
    | none => .ok (500, log)
    | some payload =>
      let productId := (idOf payload).getD nowMs
      .ok (200, recordWebhook log ⟨productId, shopDomain, topic, payload, nowMs⟩)

/-! ### Store lemmas -/

theorem statesGet_delete (st : StateStore) (m n : String) :
    statesGet (statesDelete st m) n = if n = m then none else statesGet st n := by
  induction st with
  | nil => simp [statesGet, statesDelete]
  | cons e rest ih =>
    by_cases hem : e.nonce = m
    · have : (e.nonce != m) = false := by simp [hem]
      by_cases hnm : n = m
      · simp only [statesDelete, List.filter_cons, this] at *
        simpa [hnm] using ih
      · have hne : (e.nonce == n) = false := by
          simp [hem]; intro h; exact hnm (h ▸ hem ▸ rfl)
        simp only [statesDelete, List.filter_cons, this] at *
        simp only [statesGet, List.find?_cons, hne, hnm, if_neg hnm] at *
        simpa [statesGet, hnm] using ih
    · have hkeep : (e.nonce != m) = true := by simp [hem]
      by_cases hen : e.nonce = n
      · have : (e.nonce == n) = true := by simp [hen]
        have hnm : ¬ n = m := fun h => hem (h ▸ hen)
        simp [statesGet, statesDelete, List.filter_cons, hkeep, this, hnm]
      · have : (e.nonce == n) = false := by simp [hen]
        simp only [statesDelete, List.filter_cons, hkeep] at *
        simpa [statesGet, this] using ih

theorem statesGet_delete_self (st : StateStore) (n : String) :
    statesGet (statesDelete st n) n = none := by
  simp [statesGet_delete]

theorem statesGet_map_replace (st : StateStore) (e : StoredState) (n : String)
    (h : e.nonce ≠ n) :
    statesGet (st.map (fun x => if x.nonce == e.nonce then e else x)) n
      = statesGet st n := by
  induction st with
  | nil => rfl
  | cons x rest ih =>
    show statesGet ((if x.nonce == e.nonce then e else x) ::
      rest.map (fun x => if x.nonce == e.nonce then e else x)) n = statesGet (x :: rest) n
    by_cases hx : x.nonce = e.nonce
    · rw [if_pos (by simp [hx])]
      unfold statesGet
      rw [List.find?_cons_of_neg _ (by simp [h]),
        List.find?_cons_of_neg _ (by simp [hx ▸ h])]
      exact ih
    · rw [if_neg (by simp [hx])]
      by_cases hxn : x.nonce = n
      · unfold statesGet
        rw [List.find?_cons_of_pos _ (by simp [hxn]),
          List.find?_cons_of_pos _ (by simp [hxn])]
      · unfold statesGet
        rw [List.find?_cons_of_neg _ (by simp [hxn]),
          List.find?_cons_of_neg _ (by simp [hxn])]
        exact ih

theorem statesGet_append_ne (st : StateStore) (e : StoredState) (n : String)
    (h : e.nonce ≠ n) : statesGet (st ++ [e]) n = statesGet st n := by
  induction st with
  | nil => simp [statesGet, show (e.nonce == n) = false by simp [h]]
  | cons x rest ih =>
    by_cases hxn : x.nonce = n
    · simp [statesGet, List.find?_cons, show (x.nonce == n) = true by simp [hxn]]
    · simpa [statesGet, List.find?_cons,
        show (x.nonce == n) = false by simp [hxn]] using ih

theorem statesGet_set_ne (st : StateStore) (e : StoredState) (n : String)
    (h : e.nonce ≠ n) : statesGet (statesSet st e) n = statesGet st n := by
  unfold statesSet
  by_cases hp : (statesGet st e.nonce).isSome
  · simpa [hp] using statesGet_map_replace st e n h
  · simpa [hp] using statesGet_append_ne st e n h

theorem consumeState_get_none (st : StateStore) (n : String) :
    statesGet (consumeState st n).2 n = none := by
  unfold consumeState
  cases h : statesGet st n with
  | none => simpa using h
  | some m => simp [statesGet_delete_self]

theorem validateState_fst (ttl now : Int) (st : StateStore) (s shop : String)
    (hne : (s == "") = false) :
    (validateState ttl now st (some s) shop).1
      = match statesGet st s with
        | none => false
        | some m =>
          if now - m.createdAt > ttl then false else (m.shopDomain == shop) := by
  show (if (s == "") = true then ((false : Bool), st)
    else match (consumeState st s).1 with
    | none => (false, (consumeState st s).2)
    | some m =>
      if now - m.createdAt > ttl then (false, (consumeState st s).2)
      else (m.shopDomain == shop, (consumeState st s).2)).1 = _
  rw [if_neg (by simp [hne])]
  unfold consumeState
  cases statesGet st s with
  | none => rfl
  | some m => by_cases hb : now - m.createdAt > ttl <;> simp [hb]

theorem validateState_empty (ttl now : Int) (st : StateStore) (shop : String) :
    validateState ttl now st (some "") shop = (false, st) := by
  show (if ("" == "") = true then ((false : Bool), st)
    else match (consumeState st "").1 with
    | none => (false, (consumeState st "").2)
    | some m =>
      if now - m.createdAt > ttl then (false, (consumeState st "").2)
      else (m.shopDomain == shop, (consumeState st "").2)) = (false, st)
  rw [if_pos (by rfl)]

theorem validateState_snd (ttl now : Int) (st : StateStore) (s shop : String) :
    (validateState ttl now st (some s) shop).2
      = if (s == "") = true then st else (consumeState st s).2 := by
  show (if (s == "") = true then ((false : Bool), st)
    else match (consumeState st s).1 with
    | none => (false, (consumeState st s).2)
    | some m =>
      if now - m.createdAt > ttl then (false, (consumeState st s).2)
      else (m.shopDomain == shop, (consumeState st s).2)).2 = _
  by_cases hse : (s == "") = true
  · rw [if_pos hse, if_pos hse]
  · rw [if_neg hse, if_neg hse]
    cases h : (consumeState st s).1 with
    | none => rfl
    | some m => by_cases hb : now - m.createdAt > ttl <;> simp [hb]

/-! ## Claims C1 and C2 -/

/-- C1. Nonce consumption (`validateState` backed by `consumeState`) returns
`true` if and only if the nonce was present in the store, the shop domain
bound to it equals the expected one, and `now - createdAt ≤ ttl`
(`stateTtlMsDefault = 5` minutes being the default TTL); in particular a
nonce whose age exceeds the TTL fails even on first use. The hypothesis
`nonce ≠ ""` reflects that `if (!state)` also short-circuits the empty
string, which `buildAuthUrl` (32 random hex characters) never issues. -/
theorem C1_validateState_true_iff (ttl now : Int) (st : StateStore)
    (nonce expected : String) (hne : nonce ≠ "") :
    (validateState ttl now st (some nonce) expected).1 = true ↔
      ∃ e, statesGet st nonce = some e ∧ e.shopDomain = expected ∧
        now - e.createdAt ≤ ttl := by
  rw [validateState_fst _ _ _ _ _ (by simp [hne])]
  cases h : statesGet st nonce with
  | none => simp [h]
  | some m =>
    by_cases hb : now - m.createdAt > ttl
    · simp only [h, if_pos hb]
      constructor
      · intro hfalse; cases hfalse
      · rintro ⟨e, he, -, hle⟩
        obtain rfl : m = e := by injection he
        omega
    · simp only [h, if_neg hb]
      constructor
      · intro hmatch
        exact ⟨m, rfl, by simpa using hmatch, by omega⟩
      · rintro ⟨e, he, hshop, -⟩
        obtain rfl : m = e := by injection he
        simpa using hshop

/-- C1 witness: a fresh matching nonce consumed 1 second after issuance
within the default TTL validates. -/
theorem C1_validateState_true_iff_witness :
    (validateState 300000 1000 [⟨"abc", "s.myshopify.com", 0⟩] (some "abc")
      "s.myshopify.com").1 = true :=
  (C1_validateState_true_iff 300000 1000 [⟨"abc", "s.myshopify.com", 0⟩]
    "abc" "s.myshopify.com" (by decide)).mpr
    ⟨⟨"abc", "s.myshopify.com", 0⟩, rfl, rfl, by norm_num⟩

/-- C2. Every consumption attempt on a nonce that exists in the store deletes
it regardless of the validation outcome, a consume attempt on a nonce makes
every immediately subsequent consume of the same nonce fail even with correct
arguments, and along any trace of ledger operations that never re-saves the
nonce, the nonce is successfully consumed at most once. -/
theorem C2_nonce_consumed_at_most_once :
    (∀ st n, statesGet (consumeState st n).2 n = none) ∧
    (∀ ttl now now' st (n shop shop' : String),
      (validateState ttl now' ((validateState ttl now st (some n) shop).2)
        (some n) shop').1 = false) ∧
    (∀ ttl (n : String) st ops, (∀ op ∈ ops, isSaveOf n op = false) →
      consumeSuccesses ttl n st ops ≤ 1) := by
  have hdel : ∀ st (n : String), statesGet (consumeState st n).2 n = none :=
    consumeState_get_none
  have hsub : ∀ ttl now st (n shop : String), statesGet st n = none →
      (validateState ttl now st (some n) shop).1 = false := by
    intro ttl now st n shop hnone
    by_cases hne : (n == "") = true
    · obtain rfl : n = "" := by simpa using hne
      rw [validateState_empty]
    · rw [validateState_fst _ _ _ _ _ (by simpa using hne), hnone]
  have hzero : ∀ ttl (n : String) ops st, statesGet st n = none →
      (∀ op ∈ ops, isSaveOf n op = false) →
      consumeSuccesses ttl n st ops = 0 := by
    intro ttl n ops
    induction ops with
    | nil => intro st _ _; rfl
    | cons op rest ih =>
      intro st hnone hsaves
      cases op with
      | save e =>
        have hne : e.nonce ≠ n := by
          have := hsaves _ (List.mem_cons_self _ _)
          simpa [isSaveOf] using this
        have hget : statesGet (saveState st e) n = none := by
          rw [saveState, statesGet_set_ne st e n hne]; exact hnone
        have hrest := ih (saveState st e) hget
          (fun op hop => hsaves op (List.mem_cons_of_mem _ hop))
        simp [consumeSuccesses, runOp, isConsumeOf, hrest]
      | consume m shop now =>
        have hget2 : statesGet (validateState ttl now st (some m) shop).2 n
            = none := by
          rw [validateState_snd]
          by_cases hme : (m == "") = true
          · rw [if_pos hme]; exact hnone
          · rw [if_neg hme]
            unfold consumeState
            cases hm : statesGet st m with
            | none => simpa using hnone
            | some e =>
              by_cases hmn : n = m
              · simp [statesGet_delete, hmn]
              · simp [statesGet_delete, hmn, hnone]
        have hrest := ih _ hget2
          (fun op hop => hsaves op (List.mem_cons_of_mem _ hop))
        by_cases hmn : m = n
        · subst hmn
          have hfail := hsub ttl now st m shop hnone
          simp [consumeSuccesses, runOp, hfail, hrest]
        · simp [consumeSuccesses, runOp, isConsumeOf, hmn, hrest]
  refine ⟨hdel, ?_, ?_⟩
  · intro ttl now now' st n shop shop'
    by_cases hne : (n == "") = true
    · obtain rfl : n = "" := by simpa using hne
      rw [validateState_empty]
    · apply hsub
      rw [validateState_snd, if_neg hne]
      exact hdel st n
  · intro ttl n st ops hsaves
    induction ops generalizing st with
    | nil => simp [consumeSuccesses]
    | cons op rest ih =>
      have hrestsaves : ∀ op ∈ rest, isSaveOf n op = false :=
        fun op hop => hsaves op (List.mem_cons_of_mem _ hop)
      cases op with
      | save e =>
        have := ih (saveState st e) hrestsaves
        simpa [consumeSuccesses, runOp, isConsumeOf] using this
      | consume m shop now =>
        by_cases hmn : m = n
        · subst hmn
          by_cases hme : (m == "") = true
          · obtain rfl : m = "" := by simpa using hme
            have hrest := ih (validateState ttl now st (some "") shop).2
              hrestsaves
            simp only [consumeSuccesses, runOp, validateState_empty]
            simpa using hrest
          · have hget2 : statesGet (validateState ttl now st (some m) shop).2 m
                = none := by
              rw [validateState_snd, if_neg hme]; exact hdel st m
            have hz := hzero ttl m rest _ hget2 hrestsaves
            simp only [consumeSuccesses, runOp, hz]
            split <;> omega
        · have := ih (validateState ttl now st (some m) shop).2 hrestsaves
          simpa [consumeSuccesses, runOp, isConsumeOf, hmn] using this

/-! ### Shop-domain pattern characterization -/

theorem shopDomainMatches_iff (s : String) :
    shopDomainMatches s = true ↔ specShopPattern s := by
  have hsuf : (".myshopify.com".data).length = 14 := rfl
  constructor
  · intro h
    unfold shopDomainMatches at h
    by_cases hlen : s.data.length < (".myshopify.com".data).length + 1
    · rw [if_pos hlen] at h; exact absurd h (by simp)
    · rw [if_neg hlen] at h
      rcases hp : s.data.take (s.data.length - (".myshopify.com".data).length)
        with _ | ⟨c, rest⟩
      · rw [hp] at h; simp at h
      · rw [hp, Bool.and_eq_true] at h
        obtain ⟨h1, h2⟩ := h
        rw [Bool.and_eq_true] at h2
        obtain ⟨hc, hall⟩ := h2
        refine ⟨c, rest, ?_, hc, ?_⟩
        · have hdrop : s.data.drop
              (s.data.length - (".myshopify.com".data).length)
              = ".myshopify.com".data := eq_of_beq h1
          conv_lhs => rw [← List.take_append_drop
            (s.data.length - (".myshopify.com".data).length) s.data]
          rw [hp, hdrop, List.cons_append]
        · intro x hx
          have hx2 := List.all_eq_true.mp hall x hx
          rw [Bool.or_eq_true] at hx2
          rcases hx2 with hx2 | hx2
          · exact Or.inl hx2
          · exact Or.inr (by simpa using hx2)
  · rintro ⟨c, mid, hdec, hc, hmid⟩
    have hlen : s.data.length = mid.length + 15 := by
      rw [hdec]; simp
    have hidx : s.data.length - (".myshopify.com".data).length
        = (c :: mid).length := by
      rw [hlen, hsuf]; simp
    unfold shopDomainMatches
    rw [if_neg (by rw [hlen, hsuf]; omega)]
    have htake : s.data.take (s.data.length - (".myshopify.com".data).length)
        = c :: mid := by
      rw [hidx, hdec]
      exact List.take_left _ _
    have hdrop : s.data.drop (s.data.length - (".myshopify.com".data).length)
        = ".myshopify.com".data := by
      rw [hidx, hdec]
      exact List.drop_left _ _
    rw [htake, hdrop]
    simp only [beq_self_eq_true, Bool.true_and, hc]
    exact List.all_eq_true.mpr
      (fun x hx => by rcases hmid x hx with h | h <;> simp [h])

/-- C2 witness: a concrete trace — issue one nonce in the initial store,
consume it twice — contains at most one successful consume. -/
theorem C2_nonce_consumed_at_most_once_witness :
    consumeSuccesses 300000 "abc" [⟨"abc", "shop-a.myshopify.com", 0⟩]
      [.consume "abc" "shop-a.myshopify.com" 10,
       .consume "abc" "shop-a.myshopify.com" 20] ≤ 1 :=
  C2_nonce_consumed_at_most_once.2.2 300000 "abc"
    [⟨"abc", "shop-a.myshopify.com", 0⟩]
    [.consume "abc" "shop-a.myshopify.com" 10,
     .consume "abc" "shop-a.myshopify.com" 20]
    (by decide)

/-- C4. The claim says `verifyWebhookHmac` totally returns a boolean and no
input makes it throw; but `crypto.timingSafeEqual` throws a `RangeError`
whenever the two buffers differ in byte length, and the computed digest is
always 44 base64 characters, so any well-formed secret with a nonempty
header of a different length crashes instead of failing verification: here
the 5-byte header `"short"`. -/
theorem C4_verifyWebhookHmac_throws_on_short_header :
    verifyWebhookHmac (some "shpss_secret") (utf8Bytes "{}") (some "short")
      = Except.error () := by rfl

/-- C10. `getSession` throws the invalid-shop-domain error for every input
whose trim does not match `^[A-Za-z0-9][A-Za-z0-9-]*\.myshopify\.com$`, and
for matching inputs returns the stored session for the trimmed domain, or
`undefined` (`none`) when none exists. -/
theorem C10_getSession_domain_validation (sessions : List StoredSession)
    (shop : String) :
    (¬ specShopPattern (jsTrim shop) →
      getSession sessions shop
        = .error "Invalid shop domain. Expected format: example.myshopify.com") ∧
    (specShopPattern (jsTrim shop) →
      getSession sessions shop = .ok (sessionsGet sessions (jsTrim shop))) := by
  constructor
  · intro hpat
    have hm : shopDomainMatches (jsTrim shop) = false := by
      by_cases h : shopDomainMatches (jsTrim shop) = true
      · exact absurd ((shopDomainMatches_iff _).mp h) hpat
      · simpa using h
    simp [getSession, sanitizeShopDomain, hm, Except.map]
  · intro hpat
    have hm : shopDomainMatches (jsTrim shop) = true :=
      (shopDomainMatches_iff _).mpr hpat
    simp [getSession, sanitizeShopDomain, hm, Except.map]

/-- C10 witness: a pattern-matching domain with surrounding whitespace is
trimmed, looked up, and yields `none` on an empty session store. -/
theorem C10_getSession_domain_validation_witness :
    getSession [] " x.myshopify.com " = Except.ok none := by
  have happ := (C10_getSession_domain_validation [] " x.myshopify.com ").2
    ⟨'x', [], by decide, by decide, by simp⟩
  rw [happ]; rfl

/-- C9. Webhook ingestion fails closed: whenever signature verification of
the raw body does not succeed, any non-crashing handler outcome leaves the
persisted log (and hence the result of the list operation) unchanged, and
conversely a changed log implies verification succeeded on the raw bytes. -/
theorem C9_webhook_fails_closed :
    (∀ (α : Type) (secret : Option String) (parseBody : List Nat → Option α)
        (idOf : α → Option Int) (now : Int) (rawBody : List Nat)
        (hmacHeader topicHeader shopHeader : Option String)
        (log : List (ProductWebhookEvent α)),
      verifyWebhookHmac secret rawBody hmacHeader ≠ Except.ok true →
      ∀ p, handleProductWebhook secret parseBody idOf now rawBody hmacHeader
          topicHeader shopHeader log = Except.ok p →
        p.2 = log ∧ listWebhooks p.2 = listWebhooks log) ∧
    (∀ (α : Type) (secret : Option String) (parseBody : List Nat → Option α)
        (idOf : α → Option Int) (now : Int) (rawBody : List Nat)
        (hmacHeader topicHeader shopHeader : Option String)
        (log : List (ProductWebhookEvent α)) p,
      handleProductWebhook secret parseBody idOf now rawBody hmacHeader
          topicHeader shopHeader log = Except.ok p →
      p.2 ≠ log → verifyWebhookHmac secret rawBody hmacHeader = Except.ok true) := by
  constructor
  · intro α secret parse idOf now body hh th sh log hver p hp
    unfold handleProductWebhook at hp
    rcases hv : verifyWebhookHmac secret body hh with e | b
    · rw [hv] at hp; rcases e; exact Except.noConfusion hp
    · rw [hv] at hp
      cases b
      · obtain rfl : p = (401, log) := (Except.ok.inj hp).symm
        exact ⟨rfl, rfl⟩
      · exact absurd hv hver
  · intro α secret parse idOf now body hh th sh log p hp hne
    unfold handleProductWebhook at hp
    rcases hv : verifyWebhookHmac secret body hh with e | b
    · rw [hv] at hp; rcases e; exact Except.noConfusion hp
    · rw [hv] at hp
      cases b
      · obtain rfl : p = (401, log) := (Except.ok.inj hp).symm
        exact absurd rfl hne
      · rfl

/-- C9 witness: a missing secret makes verification fail, the handler
answers 401, and the (empty) log is untouched. -/
theorem C9_webhook_fails_closed_witness :
    ((401, ([] : List (ProductWebhookEvent Unit))) :
        Nat × List (ProductWebhookEvent Unit)).2 = [] ∧
      listWebhooks (((401, ([] : List (ProductWebhookEvent Unit))) :
        Nat × List (ProductWebhookEvent Unit)).2) = listWebhooks [] :=
  C9_webhook_fails_closed.1 Unit none (fun _ => none) (fun _ => none) 0 []
    none none none []
    (by
      intro h
      rw [show verifyWebhookHmac none [] none = Except.ok false from rfl] at h
      exact absurd h (by simp))
    (401, []) rfl

/-- C7 counterexample: the claim's universal bound fails on a reachable
input. The `/products` route passes `Number(req.query.limit)` to
`fetchProductsPage`, so `GET /products?limit=abc` supplies NaN
(`some none`); `Math.max(NaN, 1)` and `Math.min(NaN, 250)` are NaN, and the
issued request carries `limit=NaN` — not a number in `[1, 250]`. -/
theorem C7_counterexample_nan_limit :
    fetchProductsPage (fun _ => ⟨[], none⟩)
        [⟨"tok", "read_products", "a.myshopify.com", 0⟩] "a.myshopify.com"
        none (some none)
      = .ok (⟨none, none⟩, ⟨[], none⟩) ∧
    ¬ ∃ l : ℚ, (⟨none, none⟩ : PageRequest).limit = some l ∧
      1 ≤ l ∧ l ≤ 250 := by
  constructor
  · rfl
  · rintro ⟨l, hl, -, -⟩
    exact Option.noConfusion hl

/-- C7 as amended: every request `fetchProductsPage` issues carries the
limit `Math.min(Math.max(limit ?? 100, 1), 250)`; for a numeric (non-NaN)
supplied limit that value is a number in `[1, 250]` — below 1 raised to 1,
above 250 lowered to 250, in-range kept — and an absent limit defaults to
100, while a NaN limit (reachable as `Number(req.query.limit)` from the
`/products` route) passes through the clamp and is sent upstream as NaN,
unclamped; and a storefront with a valid domain but no session fails with
the session-missing error, in which case no request is issued (the
upstream oracle is consulted only in the success branch). -/
theorem C7_fetchProductsPage_clamps_limit (up : PageRequest → ProductPage)
    (sessions : List StoredSession) (shop : String) (pageInfo : Option String)
    (limit : Option (Option ℚ)) :
    (∀ req page,
      fetchProductsPage up sessions shop pageInfo limit = .ok (req, page) →
      req.limit = jsMin (jsMax (limit.getD (some 100)) (some 1)) (some 250) ∧
      (limit = none → req.limit = some 100) ∧
      (limit = some none → req.limit = none) ∧
      (∀ l : ℚ, limit = some (some l) →
        ∃ lc : ℚ, req.limit = some lc ∧ 1 ≤ lc ∧ lc ≤ 250 ∧
          (l < 1 → lc = 1) ∧ (250 < l → lc = 250) ∧
          (1 ≤ l → l ≤ 250 → lc = l))) ∧
    (specShopPattern (jsTrim shop) → sessionsGet sessions (jsTrim shop) = none →
      fetchProductsPage up sessions shop pageInfo limit
        = .error (.sessionMissing shop)) := by
  constructor
  · intro req page h
    have hreq : req = ⟨jsMin (jsMax (limit.getD (some 100)) (some 1))
        (some 250), jsOptCursor pageInfo⟩ := by
      unfold fetchProductsPage at h
      rcases hg : getSession sessions shop with e | o
      · rw [hg] at h; exact Except.noConfusion h
      · rw [hg] at h
        cases o with
        | none => exact Except.noConfusion h
        | some sess =>
          have h2 := Except.ok.inj h
          exact (Prod.ext_iff.mp h2).1.symm
    rw [hreq]
    refine ⟨rfl, ?_, ?_, ?_⟩
    · intro hnone; rw [hnone]
      show some (min (max (100 : ℚ) 1) 250) = some 100
      rw [max_eq_left (by norm_num), min_eq_left (by norm_num)]
    · intro hnan; rw [hnan]
      rfl
    · intro l hl; rw [hl]
      refine ⟨min (max l 1) 250, rfl, ?_, min_le_right _ _, ?_, ?_, ?_⟩
      · exact le_min (le_max_right _ _) (by norm_num)
      · intro hlt
        rw [max_eq_right hlt.le, min_eq_left (by norm_num)]
      · intro hgt
        rw [max_eq_left (by linarith), min_eq_right hgt.le]
      · intro h1 h2
        rw [max_eq_left h1, min_eq_left h2]
  · intro hpat hnone
    have hm := (shopDomainMatches_iff _).mpr hpat
    unfold fetchProductsPage getSession sanitizeShopDomain
    simp [hm, hnone, Except.map]

/-- C7 witness: an oversized numeric limit 999 yields a clamped in-range
limit, and a valid but uninstalled storefront fails with the
session-missing error. -/
theorem C7_fetchProductsPage_clamps_limit_witness :
    (∃ lc : ℚ, (⟨jsMin (jsMax (some 999) (some 1)) (some 250), none⟩ :
        PageRequest).limit = some lc ∧ 1 ≤ lc ∧ lc ≤ 250) ∧
    fetchProductsPage (fun _ => ⟨[], none⟩) [] "gone.myshopify.com" none none
      = .error (.sessionMissing "gone.myshopify.com") := by
  constructor
  · have hcall : fetchProductsPage (fun _ => ⟨[], none⟩)
        [⟨"tok", "read_products", "a.myshopify.com", 0⟩] "a.myshopify.com"
        none (some (some 999))
        = .ok (⟨jsMin (jsMax (some 999) (some 1)) (some 250), none⟩,
            ⟨[], none⟩) := by rfl
    obtain ⟨lc, hlc, h1, h2, -, -, -⟩ :=
      ((C7_fetchProductsPage_clamps_limit (fun _ => ⟨[], none⟩)
        [⟨"tok", "read_products", "a.myshopify.com", 0⟩] "a.myshopify.com"
        none (some (some 999))).1
        ⟨jsMin (jsMax (some 999) (some 1)) (some 250), none⟩ ⟨[], none⟩
        hcall).2.2.2 999 rfl
    exact ⟨lc, hlc, h1, h2⟩
  · exact (C7_fetchProductsPage_clamps_limit _ [] "gone.myshopify.com" none
      none).2 ⟨'g', "one".data, by decide, by decide, by decide⟩ rfl

/-! ### Retry-count lemmas for the resilient client -/

theorem shopifyRequestGo_count_le (up : Nat → UpstreamResponse)
    (retryOn : Bool) :
    ∀ k attempt, MAX_RETRIES - attempt ≤ k →
      (shopifyRequestGo up retryOn attempt).2 ≤ k + 1 := by
  intro k
  induction k with
  | zero =>
    intro attempt h
    have hge : ¬ (attempt < MAX_RETRIES) := by
      simp only [MAX_RETRIES] at h ⊢; omega
    rw [shopifyRequestGo]
    by_cases hok : respOk (up attempt) = true
    · simp [hok]
    · rw [if_neg (by simp [hok])]
      rw [dif_neg (by simp [hge])]
  | succ n ih =>
    intro attempt h
    rw [shopifyRequestGo]
    by_cases hok : respOk (up attempt) = true
    · simp [hok]
    · rw [if_neg (by simp [hok])]
      by_cases hg : (retryOn && shouldRetry (up attempt)
          && decide (attempt < MAX_RETRIES)) = true
      · rw [dif_pos hg]
        have hlt : attempt < MAX_RETRIES := by
          simp only [Bool.and_eq_true, decide_eq_true_eq] at hg
          exact hg.2
        have hrec := ih (attempt + 1)
          (by simp only [MAX_RETRIES] at h hlt ⊢; omega)
        simpa using Nat.add_le_add_right hrec 1
      · rw [dif_neg (by simp only [hg]; exact Bool.false_ne_true)]
        simp

theorem shopifyRequestGo_persistent_fail (up : Nat → UpstreamResponse)
    (hfail : ∀ n, respOk (up n) = false ∧ shouldRetry (up n) = true) :
    ∀ k attempt, attempt + k = MAX_RETRIES →
      shopifyRequestGo up true attempt
        = (.error ((up MAX_RETRIES).status, (up MAX_RETRIES).body), k + 1) := by
  intro k
  induction k with
  | zero =>
    intro attempt h
    obtain rfl : attempt = MAX_RETRIES := by omega
    rw [shopifyRequestGo]
    rw [if_neg (by simp [(hfail MAX_RETRIES).1])]
    rw [dif_neg (by simp)]
  | succ n ih =>
    intro attempt h
    rw [shopifyRequestGo]
    rw [if_neg (by simp [(hfail attempt).1])]
    rw [dif_pos (by
      simp only [Bool.and_eq_true, decide_eq_true_eq, (hfail attempt).2,
        Bool.true_and, true_and]
      simp only [MAX_RETRIES] at h ⊢
      omega)]
    rw [ih (attempt + 1) (by omega)]

theorem shopifyRequestGo_ok_stops (up : Nat → UpstreamResponse)
    (retryOn : Bool) (attempt : Nat) (h : respOk (up attempt) = true) :
    shopifyRequestGo up retryOn attempt = (.ok (up attempt), 1) := by
  rw [shopifyRequestGo]
  simp [h]

/-- C5 counterexample: against a persistently-429 upstream with retries
enabled, `shopifyRequest` issues 4 HTTP requests, not at most 3 as the
claim states (`MAX_RETRIES = 3` bounds the retries after the initial
attempt, so up to 4 requests total). -/
theorem C5_counterexample_four_requests :
    ¬ ((shopifyRequest (fun _ => ⟨429, "busy", none⟩) true).2 ≤ 3) := by
  have h := shopifyRequestGo_persistent_fail (fun _ => ⟨429, "busy", none⟩)
    (fun _ => ⟨rfl, rfl⟩) 3 0 rfl
  rw [shopifyRequest, h]
  omega

/-- C5 as amended: `shopifyRequest` issues at most `MAX_RETRIES + 1 = 4`
total HTTP requests; against a persistently failing retryable upstream with
retries enabled it issues exactly 4 and surfaces the last response's status
and body as the terminal failure; and a 2xx response on any attempt is
returned unchanged at once, with no further request. -/
theorem C5_shopifyRequest_bounded (up : Nat → UpstreamResponse)
    (retryOn : Bool) :
    ((shopifyRequest up retryOn).2 ≤ MAX_RETRIES + 1) ∧
    ((∀ n, respOk (up n) = false ∧ shouldRetry (up n) = true) →
      shopifyRequest up true
        = (.error ((up MAX_RETRIES).status, (up MAX_RETRIES).body),
           MAX_RETRIES + 1)) ∧
    (∀ attempt, respOk (up attempt) = true →
      shopifyRequestGo up retryOn attempt = (.ok (up attempt), 1)) := by
  refine ⟨?_, ?_, ?_⟩
  · exact shopifyRequestGo_count_le up retryOn MAX_RETRIES 0 (by omega)
  · intro hfail
    exact shopifyRequestGo_persistent_fail up hfail MAX_RETRIES 0 rfl
  · exact shopifyRequestGo_ok_stops up retryOn

/-- C5 witness: the persistently-429 upstream yields exactly 4 requests and
the terminal error `(429, "busy")`; a 200 on the first attempt is returned
at once. -/
theorem C5_shopifyRequest_bounded_witness :
    shopifyRequest (fun _ => ⟨429, "busy", none⟩) true
      = (.error (429, "busy"), 4) ∧
    shopifyRequestGo (fun _ => ⟨200, "ok", none⟩) true 0
      = (.ok ⟨200, "ok", none⟩, 1) :=
  ⟨(C5_shopifyRequest_bounded (fun _ => ⟨429, "busy", none⟩) true).2.1
      (fun _ => ⟨rfl, rfl⟩),
   (C5_shopifyRequest_bounded (fun _ => ⟨200, "ok", none⟩) true).2.2 0 rfl⟩

theorem throttleDelay_header (r : UpstreamResponse) (h : String)
    (hh : r.callLimitHeader = some h) :
    throttleDelayFromHeaders r
      = if (h == "") = true then none
        else
          match splitNumbers h with
          | (some used, some bucket) =>
            if bucket = 0 then none
            else
              if used / bucket < 4 / 5 then none
              else some (BASE_DELAY_MS + (used / bucket - 4 / 5) * 1000)
          | _ => none := by
  unfold throttleDelayFromHeaders
  rw [hh]

theorem throttleDelay_parsed (r : UpstreamResponse) (h : String) (u b : ℚ)
    (hh : r.callLimitHeader = some h) (hne : (h == "") = false)
    (hsp : splitNumbers h = (some u, some b)) :
    throttleDelayFromHeaders r
      = if b = 0 then none
        else
          if u / b < 4 / 5 then none
          else some (BASE_DELAY_MS + (u / b - 4 / 5) * 1000) := by
  rw [throttleDelay_header r h hh, if_neg (by simp [hne]), hsp]

/-- C6 counterexample: for the prior response carrying header `90/100`
(utilization 0.9), the code's inserted delay is
`500 * 2^0 + 0 + (500 + 0.1 * 1000) = 1100`, not the claimed
`500 * 2^0 + 0 + (0.9 - 0.8) * 1000 = 600`: `throttleDelayFromHeaders`
adds `BASE_DELAY_MS` on top of the proportional term. -/
theorem C6_counterexample_extra_500 :
    retryDelay 0 0 ⟨429, "", some "90/100"⟩
      ≠ 500 * 2 ^ 0 + 0 + ((90 / 100 : ℚ) - 4 / 5) * 1000 := by
  have hsp : splitNumbers "90/100" = (some 90, some 100) := by decide
  have hth : throttleDelayFromHeaders ⟨429, "", some "90/100"⟩
      = some (500 + ((90 : ℚ) / 100 - 4 / 5) * 1000) := by
    rw [throttleDelay_parsed _ "90/100" 90 100 rfl (by decide) hsp]
    rw [if_neg (by norm_num : ¬ ((100 : ℚ) = 0))]
    rw [if_neg (by norm_num : ¬ ((90 : ℚ) / 100 < 4 / 5))]
    rw [show BASE_DELAY_MS = 500 from rfl]
  unfold retryDelay computeBackoff
  rw [hth, show BASE_DELAY_MS = 500 from rfl]
  norm_num

/-- C6 as amended: the delay inserted before retry attempt `n + 1` equals
`500 * 2^n + jitter` (jitter drawn from `[0, 100)`), plus — exactly when the
prior response carried a parsable `used/capacity` bucket-utilization header
with nonzero capacity and utilization at least 0.8 — an additional
pre-emptive delay of `500 + (utilization - 0.8) * 1000` milliseconds; when
the header is absent, empty, malformed, has capacity 0, or shows
utilization below 0.8, no extra delay is added. -/
theorem C6_retryDelay_formula (j : ℚ) (_hj0 : 0 ≤ j) (_hj1 : j < 100) (n : Nat)
    (r : UpstreamResponse) :
    (throttleDelayFromHeaders r = none → retryDelay j n r = 500 * 2 ^ n + j) ∧
    (∀ h u b, r.callLimitHeader = some h → h ≠ "" →
      splitNumbers h = (some u, some b) → b ≠ 0 → ¬ (u / b < 4 / 5) →
      retryDelay j n r = 500 * 2 ^ n + j + (500 + (u / b - 4 / 5) * 1000)) ∧
    ((r.callLimitHeader = none ∨
      ∃ h, r.callLimitHeader = some h ∧
        (h = "" ∨ (splitNumbers h).1 = none ∨ (splitNumbers h).2 = none ∨
          ∃ u b, splitNumbers h = (some u, some b) ∧ (b = 0 ∨ u / b < 4 / 5))) →
      throttleDelayFromHeaders r = none) := by
  refine ⟨?_, ?_, ?_⟩
  · intro hnone
    unfold retryDelay computeBackoff
    rw [hnone, show BASE_DELAY_MS = 500 from rfl]
    show (500 : ℚ) * 2 ^ n + j + 0 = 500 * 2 ^ n + j
    ring
  · intro h u b hh hne hsp hb hge
    have hth : throttleDelayFromHeaders r
        = some (500 + (u / b - 4 / 5) * 1000) := by
      rw [throttleDelay_parsed r h u b hh (by simp [hne]) hsp]
      rw [if_neg hb, if_neg hge, show BASE_DELAY_MS = 500 from rfl]
    unfold retryDelay computeBackoff
    rw [hth, show BASE_DELAY_MS = 500 from rfl]
    show (500 : ℚ) * 2 ^ n + j + (500 + (u / b - 4 / 5) * 1000) = _
    ring
  · rintro (hnone | ⟨h, hh, hcond⟩)
    · unfold throttleDelayFromHeaders
      rw [hnone]
    · rw [throttleDelay_header r h hh]
      by_cases hemp : (h == "") = true
      · rw [if_pos hemp]
      · rw [if_neg hemp]
        rcases hcond with hcond | hcond | hcond | ⟨u, b, hsp, hbor⟩
        · exact absurd (by simp [hcond]) hemp
        · rcases hsp : splitNumbers h with ⟨o1, o2⟩
          rw [hsp] at hcond
          simp only at hcond
          subst hcond
          cases o2 <;> rfl
        · rcases hsp : splitNumbers h with ⟨o1, o2⟩
          rw [hsp] at hcond
          simp only at hcond
          subst hcond
          cases o1 <;> rfl
        · rw [hsp]
          show (if b = 0 then none
            else
              if u / b < 4 / 5 then none
              else some (BASE_DELAY_MS + (u / b - 4 / 5) * 1000)) = none
          by_cases hb0 : b = 0
          · rw [if_pos hb0]
          · rw [if_neg hb0]
            rcases hbor with hb | hlt
            · exact absurd hb hb0
            · rw [if_pos hlt]

/-- C6 witness: the `90/100` header (utilization 0.9) with zero jitter on
attempt 0 yields the delay `500 + 0 + (500 + 100) = 1100`. -/
theorem C6_retryDelay_formula_witness :
    retryDelay 0 0 ⟨429, "", some "90/100"⟩
      = 500 * 2 ^ 0 + 0 + (500 + ((90 : ℚ) / 100 - 4 / 5) * 1000) :=
  (C6_retryDelay_formula 0 (by norm_num) (by norm_num) 0 _).2.1 "90/100" 90 100
    rfl (by decide) (by decide) (by norm_num) (by norm_num)

/-! ### Callback canonicalization lemmas -/

theorem find?_cons_pos {α : Type} (p : α → Bool) (a : α) (l : List α)
    (h : p a = true) : (a :: l).find? p = some a := by
  rw [List.find?_cons, h]

theorem find?_cons_neg {α : Type} (p : α → Bool) (a : α) (l : List α)
    (h : p a = false) : (a :: l).find? p = l.find? p := by
  rw [List.find?_cons, h]

theorem recSet_not_mem (ps : List (String × String)) (k v : String)
    (h : ∀ p ∈ ps, p.1 ≠ k) : recSet ps k v = ps ++ [(k, v)] := by
  unfold recSet
  rw [if_neg]
  rw [List.find?_eq_none.mpr (fun x hx => by simp [h x hx])]
  simp

theorem buildQueryParams_aux (q : List (String × QueryValue)) :
    ∀ acc : List (String × String),
      (∀ p ∈ acc, ∀ kv ∈ q, p.1 ≠ kv.1) → (q.map Prod.fst).Nodup →
      q.foldl
        (fun acc kv =>
          if kv.1 == "signature" then acc
          else recSet acc kv.1 (joinValue kv.2)) acc
        = acc ++ (q.filter (fun kv => kv.1 != "signature")).map
            (fun kv => (kv.1, joinValue kv.2)) := by
  induction q with
  | nil => intro acc _ _; simp
  | cons kv rest ih =>
    intro acc hdisj hnodup
    obtain ⟨hnotin, hrest⟩ := List.nodup_cons.mp hnodup
    rw [List.foldl_cons, List.filter_cons]
    by_cases hsig : (kv.1 == "signature") = true
    · rw [if_pos hsig]
      rw [ih acc (fun p hp kv2 hk2 => hdisj p hp kv2 (List.mem_cons_of_mem _ hk2))
        hrest]
      rw [if_neg (by simp [bne, hsig])]
    · rw [if_neg hsig]
      rw [recSet_not_mem acc kv.1 (joinValue kv.2)
        (fun p hp => hdisj p hp kv (List.mem_cons_self _ _))]
      rw [ih (acc ++ [(kv.1, joinValue kv.2)]) ?_ hrest]
      · rw [if_pos (by
          simp only [bne, show (kv.1 == "signature") = false from by
            simpa using hsig]
          rfl)]
        simp
      · intro p hp kv2 hk2
        rcases List.mem_append.mp hp with hp | hp
        · exact hdisj p hp kv2 (List.mem_cons_of_mem _ hk2)
        · have : p = (kv.1, joinValue kv.2) := by simpa using hp
          rw [this]
          intro hcontra
          exact hnotin (hcontra ▸ List.mem_map_of_mem Prod.fst hk2)

theorem buildQueryParams_eq (q : List (String × QueryValue))
    (hnodup : (q.map Prod.fst).Nodup) :
    buildQueryParams q
      = (q.filter (fun kv => kv.1 != "signature")).map
          (fun kv => (kv.1, joinValue kv.2)) := by
  unfold buildQueryParams
  rw [buildQueryParams_aux q [] (by simp) hnodup]
  simp

theorem find?_map_pair (l : List (String × QueryValue)) (k : String) :
    (l.map (fun kv => (kv.1, joinValue kv.2))).find? (fun p => p.1 == k)
      = (l.find? (fun kv => kv.1 == k)).map
          (fun kv => (kv.1, joinValue kv.2)) := by
  induction l with
  | nil => rfl
  | cons kv rest ih =>
    by_cases h : (kv.1 == k) = true
    · rw [List.map_cons,
        find?_cons_pos (fun p => p.1 == k) (kv.1, joinValue kv.2) _ h,
        find?_cons_pos (fun kv => kv.1 == k) kv _ h]
      rfl
    · have hf : (kv.1 == k) = false := by simpa using h
      rw [List.map_cons,
        find?_cons_neg (fun p => p.1 == k) (kv.1, joinValue kv.2) _ hf,
        find?_cons_neg (fun kv => kv.1 == k) kv _ hf]
      exact ih

theorem find?_filter_ne (l : List (String × QueryValue)) (k s : String)
    (hks : k ≠ s) :
    (l.filter (fun kv => kv.1 != s)).find? (fun kv => kv.1 == k)
      = l.find? (fun kv => kv.1 == k) := by
  induction l with
  | nil => rfl
  | cons kv rest ih =>
    rw [List.filter_cons]
    by_cases hs : (kv.1 != s) = true
    · rw [if_pos hs]
      by_cases hk : (kv.1 == k) = true
      · rw [find?_cons_pos (fun kv => kv.1 == k) kv _ hk,
          find?_cons_pos (fun kv => kv.1 == k) kv _ hk]
      · have hf : (kv.1 == k) = false := by simpa using hk
        rw [find?_cons_neg (fun kv => kv.1 == k) kv _ hf,
          find?_cons_neg (fun kv => kv.1 == k) kv _ hf]
        exact ih
    · rw [if_neg hs]
      have hkv : kv.1 = s := by simpa using hs
      rw [find?_cons_neg (fun kv => kv.1 == k) kv _
        (by simp [hkv]; exact fun h => hks h.symm)]
      exact ih

theorem insertStr_map (f : String → String × String)
    (hf : ∀ k, (f k).1 = k) (k : String) (l : List String) :
    (insertStr k l).map f = insertPair (f k) (l.map f) := by
  induction l with
  | nil => rfl
  | cons x xs ih =>
    show (if k ≤ x then k :: x :: xs else x :: insertStr k xs).map f
      = if (f k).1 ≤ (f x).1 then f k :: f x :: xs.map f
        else f x :: insertPair (f k) (xs.map f)
    rw [hf, hf]
    by_cases h : k ≤ x
    · rw [if_pos h, if_pos h]
      rfl
    · rw [if_neg h, if_neg h, List.map_cons, ih]

theorem mem_insertStr (x k : String) (l : List String)
    (h : x ∈ insertStr k l) : x = k ∨ x ∈ l := by
  induction l with
  | nil => simpa [insertStr] using h
  | cons y ys ih =>
    unfold insertStr at h
    by_cases hc : k ≤ y
    · rw [if_pos hc] at h
      rcases h with _ | h
      · exact Or.inl rfl
      · exact Or.inr (by assumption)
    · rw [if_neg hc] at h
      rcases h with _ | h
      · exact Or.inr (List.mem_cons_self _ _)
      · rcases ih (by assumption) with h2 | h2
        · exact Or.inl h2
        · exact Or.inr (List.mem_cons_of_mem _ h2)

theorem mem_sortStrings (x : String) (l : List String)
    (h : x ∈ sortStrings l) : x ∈ l := by
  induction l generalizing x with
  | nil => simp [sortStrings] at h
  | cons y ys ih =>
    unfold sortStrings at h
    rcases mem_insertStr x y (sortStrings ys) h with h2 | h2
    · exact h2 ▸ List.mem_cons_self _ _
    · exact List.mem_cons_of_mem _ (ih x h2)

theorem sortedKeys_lookup_eq_sortPairs (rem : List (String × String))
    (hnodup : (rem.map Prod.fst).Nodup) :
    (sortStrings (rem.map Prod.fst)).map
      (fun k => (k, ((rem.find? (fun p => p.1 == k)).map Prod.snd).getD ""))
      = sortPairs rem := by
  induction rem with
  | nil => rfl
  | cons p rest ih =>
    have hnodup2 : (p.1 :: rest.map Prod.fst).Nodup := by
      rw [List.map_cons] at hnodup; exact hnodup
    obtain ⟨hnotin, hrest⟩ := List.nodup_cons.mp hnodup2
    rw [List.map_cons]
    show (insertStr p.1 (sortStrings (rest.map Prod.fst))).map
      (fun k => (k, ((List.find? (fun q => q.1 == k) (p :: rest)).map
        Prod.snd).getD "")) = insertPair p (sortPairs rest)
    rw [insertStr_map _ (fun k => rfl)]
    have hfp : (p.1, ((List.find? (fun q => q.1 == p.1) (p :: rest)).map
        Prod.snd).getD "") = p := by
      rw [find?_cons_pos (fun q => q.1 == p.1) p _ (by simp)]
      simp
    rw [hfp]
    have hmapeq : (sortStrings (rest.map Prod.fst)).map
        (fun k => (k, ((List.find? (fun q => q.1 == k) (p :: rest)).map
          Prod.snd).getD ""))
        = (sortStrings (rest.map Prod.fst)).map
          (fun k => (k, ((List.find? (fun q => q.1 == k) rest).map
            Prod.snd).getD "")) := by
      apply List.map_congr_left
      intro k hk
      have hkne : p.1 ≠ k := by
        intro hcontra
        exact hnotin (hcontra ▸ mem_sortStrings k _ hk)
      rw [find?_cons_neg (fun q => q.1 == k) p _ (by simp [hkne])]
    rw [hmapeq, ih hrest]

theorem callbackRemaining_eq_specParams (q : List (String × QueryValue))
    (hnodup : (q.map Prod.fst).Nodup) :
    callbackRemaining q = specCallbackParams q := by
  unfold callbackRemaining specCallbackParams
  rw [buildQueryParams_eq q hnodup]
  rw [List.filter_map, List.filter_filter]
  congr 1
  apply List.filter_congr
  intro kv _
  simp [Function.comp, Bool.and_comm]

theorem callbackReceivedHmac_eq_spec (q : List (String × QueryValue))
    (hnodup : (q.map Prod.fst).Nodup) :
    callbackReceivedHmac q = specReceivedHmac q := by
  unfold callbackReceivedHmac specReceivedHmac
  rw [buildQueryParams_eq q hnodup, find?_map_pair,
    find?_filter_ne q "hmac" "signature" (by decide)]
  cases q.find? (fun kv => kv.1 == "hmac") <;> rfl

theorem specCallbackParams_keys_nodup (q : List (String × QueryValue))
    (hnodup : (q.map Prod.fst).Nodup) :
    ((specCallbackParams q).map Prod.fst).Nodup := by
  have hkeys : (specCallbackParams q).map Prod.fst
      = (q.filter (fun kv => kv.1 != "signature" && kv.1 != "hmac")).map
          Prod.fst := by
    unfold specCallbackParams
    rw [List.map_map]
    rfl
  rw [hkeys]
  exact List.Nodup.sublist ((List.filter_sublist q).map Prod.fst) hnodup

/-- C3 counterexample: for the query `{ a: " ", hmac: H }` where `H` is the
hex HMAC of the verbatim canonical string `"a= "`, the spec-side predicate
(values taken verbatim) accepts, but the code rejects: `URLSearchParams`
serializes the value `" "` as `"+"`, so the code signs `"a=+"` instead. -/
theorem C3_counterexample_verbatim_value :
    verifyCallbackHmac "s3cret"
        [("a", .str " "),
         ("hmac", .str (bytesToHex (hmacSha256 (utf8Bytes "s3cret")
           (utf8Bytes "a= "))))]
      ≠ specCallbackAccept "s3cret"
        [("a", .str " "),
         ("hmac", .str (bytesToHex (hmacSha256 (utf8Bytes "s3cret")
           (utf8Bytes "a= "))))] := by
  have h2 : specCallbackAccept "s3cret"
      [("a", .str " "),
       ("hmac", .str (bytesToHex (hmacSha256 (utf8Bytes "s3cret")
         (utf8Bytes "a= "))))] = true := by rfl
  have h1 : verifyCallbackHmac "s3cret"
      [("a", .str " "),
       ("hmac", .str (bytesToHex (hmacSha256 (utf8Bytes "s3cret")
         (utf8Bytes "a= "))))] = false := by rfl
  rw [h1, h2]
  exact Bool.false_ne_true

/-- C3 as amended: for every query map (unique keys, as a JS record
guarantees) and nonempty secret, `verifyCallbackHmac` returns `true` if and
only if the hex HMAC-SHA256 of the canonical string — `signature` and
`hmac` excluded, keys sorted lexicographically, `key=value` joined by `&`,
multi-valued parameters comma-joined, and key and value each
`application/x-www-form-urlencoded`-escaped (rather than taken verbatim) —
equals the received `hmac` value: the two predicates agree on every input. -/
theorem C3_verifyCallbackHmac_canonicalization (secret : String)
    (q : List (String × QueryValue)) (hsecret : secret ≠ "")
    (hnodup : (q.map Prod.fst).Nodup) :
    verifyCallbackHmac secret q = specCallbackAcceptEncoded secret q := by
  have hsorted : callbackSortedParams q = sortPairs (specCallbackParams q) := by
    unfold callbackSortedParams
    rw [callbackRemaining_eq_specParams q hnodup]
    exact sortedKeys_lookup_eq_sortPairs (specCallbackParams q)
      (specCallbackParams_keys_nodup q hnodup)
  unfold verifyCallbackHmac specCallbackAcceptEncoded
  rw [if_neg (by simp [hsecret])]
  rw [callbackReceivedHmac_eq_spec q hnodup, hsorted]
  rfl

/-- C3 witness: a two-parameter query with distinct keys and a nonempty
secret, on which the code's verdict coincides with the amended spec
predicate. -/
theorem C3_verifyCallbackHmac_canonicalization_witness :
    verifyCallbackHmac "s3cret" [("shop", .str "a.myshopify.com"),
        ("hmac", .str "00")]
      = specCallbackAcceptEncoded "s3cret" [("shop", .str "a.myshopify.com"),
        ("hmac", .str "00")] :=
  C3_verifyCallbackHmac_canonicalization "s3cret"
    [("shop", .str "a.myshopify.com"), ("hmac", .str "00")]
    (by decide) (by decide)

/-! ### Pagination loop equivalence -/

theorem fetchProductsGo_eq_chain
    (fp : Option String → Except FetchErr ProductPage)
    (hcur : ∀ c page, fp c = .ok page → page.nextPageInfo ≠ some "") :
    ∀ (fuel : Nat) (cursor : Option String) (acc : List Product),
      fetchProductsGo fp fuel cursor acc
        = match specPageChain fp fuel cursor with
          | none => none
          | some (.error e) => some (.error e)
          | some (.ok pages) =>
            some (.ok (acc ++ (pages.map ProductPage.products).flatten)) := by
  intro fuel
  induction fuel with
  | zero => intro cursor acc; rfl
  | succ n ih =>
    intro cursor acc
    show (match fp cursor with
      | .error e => some (Except.error e)
      | .ok page =>
        match page.nextPageInfo with
        | none => some (Except.ok (acc ++ page.products))
        | some next =>
          if (next == "") = true then some (Except.ok (acc ++ page.products))
          else fetchProductsGo fp n (some next) (acc ++ page.products))
      = _
    cases hf : fp cursor with
    | error e =>
      show some (Except.error e)
        = match specPageChain fp (n + 1) cursor with
          | none => none
          | some (.error e) => some (Except.error e)
          | some (.ok pages) =>
            some (Except.ok (acc ++ (pages.map ProductPage.products).flatten))
      rw [show specPageChain fp (n + 1) cursor
        = match fp cursor with
          | .error e => some (Except.error e)
          | .ok page =>
            match page.nextPageInfo with
            | none => some (Except.ok [page])
            | some next =>
              match specPageChain fp n (some next) with
              | none => none
              | some (.error e) => some (Except.error e)
              | some (.ok pages) => some (Except.ok (page :: pages))
          from rfl, hf]
    | ok page =>
      rw [show specPageChain fp (n + 1) cursor
        = match fp cursor with
          | .error e => some (Except.error e)
          | .ok page =>
            match page.nextPageInfo with
            | none => some (Except.ok [page])
            | some next =>
              match specPageChain fp n (some next) with
              | none => none
              | some (.error e) => some (Except.error e)
              | some (.ok pages) => some (Except.ok (page :: pages))
          from rfl, hf]
      show (match page.nextPageInfo with
        | none => some (Except.ok (acc ++ page.products))
        | some next =>
          if (next == "") = true then some (Except.ok (acc ++ page.products))
          else fetchProductsGo fp n (some next) (acc ++ page.products))
        = match (match page.nextPageInfo with
            | none => some (Except.ok [page])
            | some next =>
              match specPageChain fp n (some next) with
              | none => none
              | some (.error e) => some (Except.error e)
              | some (.ok pages) => some (Except.ok (page :: pages))) with
          | none => none
          | some (.error e) => some (Except.error e)
          | some (.ok pages) =>
            some (Except.ok (acc ++ (pages.map ProductPage.products).flatten))
      cases hn : page.nextPageInfo with
      | none => simp
      | some next =>
        have hnext : (next == "") = false := by
          have := hcur cursor page hf
          rw [hn] at this
          simp only [ne_eq, Option.some.injEq] at this
          simpa using this
        show (if (next == "") = true
            then some (Except.ok (acc ++ page.products))
            else fetchProductsGo fp n (some next) (acc ++ page.products))
          = match (match specPageChain fp n (some next) with
              | none => none
              | some (.error e) => some (Except.error e)
              | some (.ok pages) => some (Except.ok (page :: pages))) with
            | none => none
            | some (.error e) => some (Except.error e)
            | some (.ok pages) =>
              some (Except.ok (acc ++ (pages.map ProductPage.products).flatten))
        rw [if_neg (by simp [hnext]), ih (some next) (acc ++ page.products)]
        cases hc : specPageChain fp n (some next) with
        | none => rfl
        | some res =>
          cases res with
          | error e => rfl
          | ok pages => simp

/-- C8. For every storefront, session store, fuel budget and upstream
oracle whose cursors are nonempty (the upstream encodes "no next page" as
an absent `link` relation, never as an empty `page_info`, and the JS-truthy
loop guard `while (pageInfo)` treats `""` like absence), the do-while
aggregation of `fetchProducts` returns exactly the concatenation, in
arrival order, of the products lists produced by repeatedly calling
`fetchProductsPage` starting with no cursor and following each returned
`nextPageInfo` until absent (`specFetchAll`); in particular both sides
terminate after the same number of pages and propagate the same
failures. -/
theorem C8_fetchProducts_eq_specFetchAll (up : PageRequest → ProductPage)
    (sessions : List StoredSession) (shopDomain : String) (fuel : Nat)
    (hcur : ∀ req, (up req).nextPageInfo ≠ some "") :
    fetchProducts up sessions shopDomain fuel
      = specFetchAll
          (fun pi => (fetchProductsPage up sessions shopDomain pi none).map
            Prod.snd)
          fuel := by
  have hcur2 : ∀ c page,
      (fetchProductsPage up sessions shopDomain c none).map Prod.snd
        = .ok page → page.nextPageInfo ≠ some "" := by
    intro c page h
    unfold fetchProductsPage at h
    rcases hg : getSession sessions shopDomain with e | o
    · rw [hg] at h; exact Except.noConfusion h
    · rw [hg] at h
      cases o with
      | none => exact Except.noConfusion h
      | some sess =>
        exact (Except.ok.inj h) ▸ hcur _
  unfold fetchProducts specFetchAll
  rw [fetchProductsGo_eq_chain _ hcur2]
  cases specPageChain (fun pi =>
      (fetchProductsPage up sessions shopDomain pi none).map Prod.snd)
      fuel none with
  | none => rfl
  | some res =>
    cases res with
    | error e => rfl
    | ok pages => simp

/-- C8 witness: with a one-page upstream (no next cursor) and an installed
storefront, the loop and the spec aggregation coincide on one unit of
fuel. -/
theorem C8_fetchProducts_eq_specFetchAll_witness :
    fetchProducts (fun _ => ⟨[], none⟩)
        [⟨"tok", "read_products", "w.myshopify.com", 0⟩] "w.myshopify.com" 1
      = specFetchAll
          (fun pi => (fetchProductsPage (fun _ => ⟨[], none⟩)
            [⟨"tok", "read_products", "w.myshopify.com", 0⟩]
            "w.myshopify.com" pi none).map Prod.snd) 1 :=
  C8_fetchProducts_eq_specFetchAll (fun _ => ⟨[], none⟩)
    [⟨"tok", "read_products", "w.myshopify.com", 0⟩] "w.myshopify.com" 1
    (fun _ => by simp)

end Shoppify
